import Mathlib

/-!
Verification of the media staging and render-orchestration engine
(`render.mjs`): the asset range server, the B-roll acquisition pipeline,
the composition parameter resolver and the render orchestrator.

The JavaScript source is shallowly embedded: JS strings become Lean
`String`s (manipulated through their underlying `List Char`), JS numbers
appearing in this core become `Nat`/`Int` (with `Option` marking `NaN`
where it can arise), the filesystem / network / subprocess environment
becomes an explicit `Env` record, and the orchestrator `main` becomes a
function from the environment and CLI arguments to a trace of the
observable effects (server started/closed, staging created/deleted,
render invoked, final result).
-/

/-- Decimal digit characters rendered the way a JS template literal
renders a non-negative integer: auxiliary, fuel-driven loop. -/
def natToCharsAux : Nat → Nat → List Char → List Char
  | 0, _, acc => acc
  | fuel + 1, n, acc =>
    let acc' := Char.ofNat (48 + n % 10) :: acc
    if n < 10 then acc' else natToCharsAux fuel (n / 10) acc'

/-- Decimal rendering of a natural number (JS `String(n)` / `${n}`). -/
def natToChars (n : Nat) : List Char := natToCharsAux (n + 1) n []

/-- Decimal rendering of an integer (JS `String(i)` / `${i}`). -/
def intToChars (i : Int) : List Char :=
  if i < 0 then '-' :: natToChars i.natAbs else natToChars i.toNat

/-- String form of a natural number. -/
def natStr (n : Nat) : String := ⟨natToChars n⟩

/-- String form of an integer. -/
def intStr (i : Int) : String := ⟨intToChars i⟩

/-- Numeric value denoted by a list of decimal digit characters. -/
def digitsVal (l : List Char) : Nat :=
  l.foldl (fun a c => a * 10 + (c.toNat - 48)) 0

/-- Model of JS `parseInt(s, 10)` restricted to the non-negative decimal
numerals that range headers carry: the leading run of digits, `none`
standing for `NaN` when there is none. -/
def jsParseInt (l : List Char) : Option Nat :=
  let ds := l.takeWhile Char.isDigit
  if ds = [] then none else some (digitsVal ds)

theorem digitChar_props : ∀ d, d < 10 →
    (Char.ofNat (48 + d)).toNat = 48 + d ∧
    (Char.ofNat (48 + d)).isDigit = true ∧
    Char.ofNat (48 + d) ≠ '-' := by decide

theorem natToCharsAux_append (fuel : Nat) :
    ∀ n acc, natToCharsAux fuel n acc = natToCharsAux fuel n [] ++ acc := by
  induction fuel with
  | zero => intro n acc; simp [natToCharsAux]
  | succ f ih =>
    intro n acc
    simp only [natToCharsAux]
    by_cases h : n < 10
    · simp [h]
    · simp only [if_neg h]
      rw [ih (n / 10) (Char.ofNat (48 + n % 10) :: acc),
          ih (n / 10) [Char.ofNat (48 + n % 10)]]
      simp

theorem natToCharsAux_spec (fuel : Nat) :
    ∀ n, n < 10 ^ fuel → n ≠ 0 ∨ 1 ≤ fuel →
    (∀ c ∈ natToCharsAux fuel n [], c.isDigit = true) ∧
    digitsVal (natToCharsAux fuel n []) = n ∧
    natToCharsAux fuel n [] ≠ [] := by
  induction fuel with
  | zero =>
    intro n hn hne
    interval_cases n
    · rcases hne with h | h
      · exact absurd rfl h
      · omega
  | succ f ih =>
    intro n hn _
    simp only [natToCharsAux]
    by_cases h : n < 10
    · have hd := digitChar_props (n % 10) (Nat.mod_lt _ (by norm_num))
      simp only [if_pos h]
      refine ⟨?_, ?_, by simp⟩
      · intro c hc
        simp at hc
        subst hc
        exact hd.2.1
      · simp [digitsVal, hd.1]
        omega
    · simp only [if_neg h]
      rw [natToCharsAux_append]
      have hq : n / 10 < 10 ^ f := by
        have : n < 10 ^ (f + 1) := hn
        rw [pow_succ] at this
        omega
      have hq0 : n / 10 ≠ 0 := by omega
      obtain ⟨hdig, hval, hne⟩ := ih (n / 10) hq (Or.inl hq0)
      have hd := digitChar_props (n % 10) (Nat.mod_lt _ (by norm_num))
      refine ⟨?_, ?_, by simp⟩
      · intro c hc
        rcases List.mem_append.mp hc with h1 | h1
        · exact hdig c h1
        · simp at h1
          subst h1
          exact hd.2.1
      · simp only [digitsVal, List.foldl_append, List.foldl_cons, List.foldl_nil]
        have : digitsVal (natToCharsAux f (n / 10) []) = n / 10 := hval
        simp only [digitsVal] at this
        rw [this, hd.1]
        omega

theorem natToChars_digits (n : Nat) : ∀ c ∈ natToChars n, c.isDigit = true := by
  have h := natToCharsAux_spec (n + 1) n
    (Nat.lt_of_lt_of_le (Nat.lt_two_pow n)
      (by
        calc 2 ^ n ≤ 10 ^ n := Nat.pow_le_pow_left (by norm_num) n
        _ ≤ 10 ^ (n + 1) := Nat.pow_le_pow_right (by norm_num) (by omega)))
    (Or.inr (by omega))
  exact h.1

theorem natToChars_val (n : Nat) : digitsVal (natToChars n) = n := by
  have h := natToCharsAux_spec (n + 1) n
    (Nat.lt_of_lt_of_le (Nat.lt_two_pow n)
      (by
        calc 2 ^ n ≤ 10 ^ n := Nat.pow_le_pow_left (by norm_num) n
        _ ≤ 10 ^ (n + 1) := Nat.pow_le_pow_right (by norm_num) (by omega)))
    (Or.inr (by omega))
  exact h.2.1

theorem natToChars_ne_nil (n : Nat) : natToChars n ≠ [] := by
  have h := natToCharsAux_spec (n + 1) n
    (Nat.lt_of_lt_of_le (Nat.lt_two_pow n)
      (by
        calc 2 ^ n ≤ 10 ^ n := Nat.pow_le_pow_left (by norm_num) n
        _ ≤ 10 ^ (n + 1) := Nat.pow_le_pow_right (by norm_num) (by omega)))
    (Or.inr (by omega))
  exact h.2.2

theorem takeWhile_all_eq {p : Char → Bool} :
    ∀ l : List Char, (∀ c ∈ l, p c = true) → l.takeWhile p = l := by
  intro l h
  induction l with
  | nil => rfl
  | cons c cs ih =>
    simp only [List.takeWhile_cons]
    rw [h c (by simp)]
    simp [ih fun x hx => h x (by simp [hx])]

theorem jsParseInt_natToChars (n : Nat) : jsParseInt (natToChars n) = some n := by
  unfold jsParseInt
  rw [takeWhile_all_eq _ (natToChars_digits n)]
  simp [natToChars_ne_nil n, natToChars_val n]

theorem natToChars_no_dash (n : Nat) : '-' ∉ natToChars n := by
  intro h
  have := natToChars_digits n '-' h
  simp [Char.isDigit] at this

/-- Splitting a character list at every occurrence of a separator, the way
JS `String.prototype.split` with a one-character separator does (adjacent
separators and a trailing separator yield empty fields). -/
def splitOnChar (sep : Char) : List Char → List (List Char)
  | [] => [[]]
  | c :: rest =>
    if c = sep then [] :: splitOnChar sep rest
    else
      match splitOnChar sep rest with
      | [] => [[c]]
      | p :: ps => (c :: p) :: ps

theorem splitOnChar_no_sep {sep : Char} :
    ∀ l : List Char, sep ∉ l → splitOnChar sep l = [l] := by
  intro l h
  induction l with
  | nil => rfl
  | cons c cs ih =>
    have hc : c ≠ sep := fun hcs => h (by simp [hcs])
    simp only [splitOnChar, if_neg hc]
    rw [ih fun hm => h (by simp [hm])]

theorem splitOnChar_append {sep : Char} :
    ∀ l₁ l₂ : List Char, sep ∉ l₁ →
    splitOnChar sep (l₁ ++ sep :: l₂) = l₁ :: splitOnChar sep l₂ := by
  intro l₁
  induction l₁ with
  | nil => intro l₂ _; simp [splitOnChar]
  | cons c cs ih =>
    intro l₂ h
    have hc : c ≠ sep := fun hcs => h (by simp [hcs])
    have ih' := ih l₂ fun hm => h (by simp [hm])
    show splitOnChar sep (c :: (cs ++ sep :: l₂)) = (c :: cs) :: splitOnChar sep l₂
    rw [splitOnChar, if_neg hc, ih']

/-- Removal of the first occurrence of a pattern in a character list: the
model of JS `String.prototype.replace(pattern, "")` for a plain-text
pattern. -/
def removeFirstOccur (pat : List Char) : List Char → List Char
  | [] => []
  | c :: rest =>
    if pat.isPrefixOf (c :: rest) then (c :: rest).drop pat.length
    else c :: removeFirstOccur pat rest

theorem isPrefixOf_self_append :
    ∀ l t : List Char, l.isPrefixOf (l ++ t) = true := by
  intro l t
  induction l with
  | nil => simp [List.isPrefixOf]
  | cons c cs ih => simp [List.isPrefixOf, ih]

theorem removeFirstOccur_append_self :
    ∀ pat l : List Char, removeFirstOccur pat (pat ++ l) = l := by
  intro pat l
  match pat with
  | [] =>
    match l with
    | [] => rfl
    | c :: rest => simp [removeFirstOccur, List.isPrefixOf]
  | p :: ps =>
    show removeFirstOccur (p :: ps) (p :: (ps ++ l)) = l
    rw [removeFirstOccur]
    have h1 : (p :: ps).isPrefixOf (p :: ps ++ l) = true :=
      isPrefixOf_self_append (p :: ps) l
    simp only [List.cons_append] at h1 ⊢
    rw [if_pos h1]
    exact List.drop_left (p :: ps) l

/-- JS `startsWith`. -/
def strStartsWith (s pre : String) : Bool := pre.data.isPrefixOf s.data

/-- JS `s.replace(pat, "")` for a plain-text pattern. -/
def strReplaceFirst (s pat : String) : String := ⟨removeFirstOccur pat.data s.data⟩

theorem strStartsWith_append (pre s : String) :
    strStartsWith (pre ++ s) pre = true := by
  simp only [strStartsWith, String.data_append]
  exact isPrefixOf_self_append pre.data s.data

theorem strReplaceFirst_append (pat rest : String) :
    strReplaceFirst (pat ++ rest) pat = rest := by
  simp only [strReplaceFirst, String.data_append]
  rw [removeFirstOccur_append_self]

theorem append_ne_empty_of_ne (pre s : String) (h : pre ≠ "") : pre ++ s ≠ "" := by
  intro hc
  apply h
  have := congrArg String.data hc
  simp only [String.data_append] at this
  cases hd : pre.data with
  | nil => cases pre; simp_all
  | cons c cs => rw [hd] at this; simp at this

/-- JS `toLowerCase` (ASCII, which the extension sets involved use). -/
def lowerStr (s : String) : String := ⟨s.data.map Char.toLower⟩

/-- Characters of the last `/`-separated segment (Node `path.basename`). -/
def basenameChars (l : List Char) : List Char :=
  (l.reverse.takeWhile (fun c => c ≠ '/')).reverse

/-- Node `path.basename`. -/
def basenameStr (s : String) : String := ⟨basenameChars s.data⟩

/-- Node `path.extname` on a character list: the suffix of the basename
from its last dot, empty when there is no dot or when the only dot leads
the basename. -/
def extnameChars (p : List Char) : List Char :=
  let b := basenameChars p
  let tl := b.reverse.takeWhile (fun c => c ≠ '.')
  if tl.length = b.length then []
  else if tl.length + 1 = b.length then []
  else '.' :: tl.reverse

/-- Pathname of an `http(s)` URL: everything from the first slash after
the authority up to a query or fragment, `/` when absent.  Models the
WHATWG `URL.pathname` for the well-formed remote URLs this pipeline
downloads. -/
def urlPathnameChars (u : List Char) : List Char :=
  let afterScheme :=
    if ("https://".data).isPrefixOf u then u.drop 8 else u.drop 7
  let rest := afterScheme.dropWhile (fun c => c ≠ '/')
  if rest = [] then ['/']
  else rest.takeWhile (fun c => c ≠ '?' ∧ c ≠ '#')

/-- The source's `getExt`: try `new URL(p)` and take the extension of its
pathname — which succeeds exactly for the `http(s)` sources this pipeline
treats as remote — otherwise (the constructor throws) fall back to
`path.extname` on the raw string. -/
def getExt (p : String) : String :=
  if strStartsWith p "http://" || strStartsWith p "https://" then
    ⟨extnameChars (urlPathnameChars p.data)⟩
  else ⟨extnameChars p.data⟩

/-- Characters `encodeURIComponent` leaves unescaped. -/
def isUriUnescaped (c : Char) : Bool :=
  c.isAlphanum || c ∈ ['-', '_', '.', '!', '~', '*', '\'', '(', ')']

/-- Upper-case hexadecimal digit. -/
def hexDigitChar (n : Nat) : Char :=
  if n < 10 then Char.ofNat (48 + n) else Char.ofNat (55 + n)

/-- Percent-escape of a single character (ASCII, which the staged file
names produced by this pipeline are). -/
def pctEncodeChar (c : Char) : List Char :=
  if isUriUnescaped c then [c]
  else ['%', hexDigitChar (c.toNat / 16 % 16), hexDigitChar (c.toNat % 16)]

/-- JS `encodeURIComponent` restricted to ASCII input. -/
def encodeURIComponent (s : String) : String :=
  ⟨(s.data.map pctEncodeChar).flatten⟩

/-- Response observed for a request to `/video`: status, the headers the
handler writes, the streamed body, and whether building the stream failed
(Node throws on an invalid `start`/`end` pair). -/
structure VideoResponse where
  status : Nat
  contentRange : Option String
  acceptRanges : Bool
  contentLength : Option Int
  body : List Nat
  streamErr : Bool
deriving DecidableEq, Repr

/-- Rendering of a possibly-`NaN` number inside a template literal. -/
def mkNumChars : Option Int → List Char
  | some i => intToChars i
  | none => ['N', 'a', 'N']

/-- The `Content-Range` header the handler writes:
`bytes ${start}-${end}/${fileSize}`. -/
def mkContentRange (s e : Option Int) (total : Nat) : String :=
  ⟨('b' :: 'y' :: 't' :: 'e' :: 's' :: ' ' :: mkNumChars s) ++
    '-' :: mkNumChars e ++ '/' :: natToChars total⟩

/-- The `/video` request handler of `startVideoServer`, for a file whose
bytes are `file` and an optional `Range` header.  Without a header: a 200
response carrying the whole file.  With one: strip `bytes=`, split on
`-`, `parseInt` the first part, default the second to `fileSize - 1` when
missing or empty, write a 206 with `Content-Range` and a `Content-Length`
of `end - start + 1`, and stream the inclusive byte span (Node's
`createReadStream` rejects a `NaN` or decreasing span, which destroys the
response). -/
def handleVideoRequest (file : List Nat) (range : Option String) : VideoResponse :=
  let fileSize := file.length
  match range with
  | none =>
    { status := 200, contentRange := none, acceptRanges := true,
      contentLength := some (fileSize : Int), body := file, streamErr := false }
  | some r =>
    let parts := splitOnChar '-' (removeFirstOccur "bytes=".data r.data)
    let startNum : Option Int := (jsParseInt (parts.getD 0 [])).map (Int.ofNat)
    let endNum : Option Int :=
      match parts.getD 1 [] with
      | [] => some ((fileSize : Int) - 1)
      | p => (jsParseInt p).map (Int.ofNat)
    match startNum, endNum with
    | some s, some e =>
      if 0 ≤ s ∧ s ≤ e then
        { status := 206, contentRange := some (mkContentRange (some s) (some e) fileSize),
          acceptRanges := true, contentLength := some (e - s + 1),
          body := (file.drop s.toNat).take (e.toNat - s.toNat + 1), streamErr := false }
      else
        { status := 206, contentRange := some (mkContentRange (some s) (some e) fileSize),
          acceptRanges := true, contentLength := some (e - s + 1),
          body := [], streamErr := true }
    | s?, e? =>
      { status := 206, contentRange := some (mkContentRange s? e? fileSize),
        acceptRanges := true, contentLength := none, body := [], streamErr := true }

/-- The header `bytes=start-end` of a closed-range request. -/
def closedRangeHeader (s e : Nat) : String :=
  ⟨"bytes=".data ++ natToChars s ++ '-' :: natToChars e⟩

/-- The header `bytes=start-` of an open-ended range request. -/
def openRangeHeader (s : Nat) : String :=
  ⟨"bytes=".data ++ natToChars s ++ ['-']⟩

theorem closedRangeHeader_parts (s e : Nat) :
    splitOnChar '-'
      (removeFirstOccur ['b', 'y', 't', 'e', 's', '='] (closedRangeHeader s e).data) =
      [natToChars s, natToChars e] := by
  show splitOnChar '-' (removeFirstOccur "bytes=".data
    ("bytes=".data ++ natToChars s ++ '-' :: natToChars e)) = _
  rw [List.append_assoc, removeFirstOccur_append_self,
    splitOnChar_append _ _ (natToChars_no_dash s),
    splitOnChar_no_sep _ (natToChars_no_dash e)]

theorem openRangeHeader_parts (s : Nat) :
    splitOnChar '-'
      (removeFirstOccur ['b', 'y', 't', 'e', 's', '='] (openRangeHeader s).data) =
      [natToChars s, []] := by
  show splitOnChar '-' (removeFirstOccur "bytes=".data
    ("bytes=".data ++ natToChars s ++ ['-'])) = _
  rw [List.append_assoc, removeFirstOccur_append_self,
    splitOnChar_append _ _ (natToChars_no_dash s)]
  rfl

/-- The claim's expected `Content-Range` value, assembled independently of
the handler. -/
theorem mkContentRange_eq (s e n : Nat) :
    mkContentRange (some (s : Int)) (some (e : Int)) n =
      "bytes " ++ natStr s ++ "-" ++ natStr e ++ "/" ++ natStr n := by
  have hb : "bytes ".data = ['b', 'y', 't', 'e', 's', ' '] := rfl
  have hd : "-".data = ['-'] := rfl
  have hs : "/".data = ['/'] := rfl
  apply congrArg String.mk
  show ('b' :: 'y' :: 't' :: 'e' :: 's' :: ' ' :: mkNumChars (some (s : Int))) ++
      '-' :: mkNumChars (some (e : Int)) ++ '/' :: natToChars n =
    ("bytes " ++ natStr s ++ "-" ++ natStr e ++ "/" ++ natStr n).data
  have hnn : ∀ m : Nat, ¬((m : Int) < 0) := fun m => Int.not_lt.mpr (Int.natCast_nonneg m)
  simp only [String.data_append, hb, hd, hs, natStr, mkNumChars, intToChars,
    if_neg (hnn s), if_neg (hnn e), Int.toNat_natCast, List.append_assoc]
  simp

theorem handleVideo_closed (file : List Nat) (a b : Nat) (hab : a ≤ b) :
    handleVideoRequest file (some (closedRangeHeader a b)) =
      { status := 206,
        contentRange := some (mkContentRange (some (a : Int)) (some (b : Int)) file.length),
        acceptRanges := true,
        contentLength := some ((b : Int) - (a : Int) + 1),
        body := (file.drop a).take (b - a + 1),
        streamErr := false } := by
  obtain ⟨c, cs, hcons⟩ : ∃ c cs, natToChars b = c :: cs := by
    cases h : natToChars b with
    | nil => exact absurd h (natToChars_ne_nil b)
    | cons c cs => exact ⟨c, cs, rfl⟩
  simp only [handleVideoRequest, closedRangeHeader_parts]
  rw [hcons]
  simp only [List.getD_cons_zero, List.getD_cons_succ]
  rw [← hcons, jsParseInt_natToChars a, jsParseInt_natToChars b]
  simp only [Option.map_some']
  rw [if_pos ⟨Int.natCast_nonneg a, Int.ofNat_le.mpr hab⟩]
  simp [Int.toNat_natCast]

theorem handleVideo_open (file : List Nat) (a : Nat) (h : 1 ≤ file.length) :
    handleVideoRequest file (some (openRangeHeader a)) =
      handleVideoRequest file (some (closedRangeHeader a (file.length - 1))) := by
  obtain ⟨c, cs, hcons⟩ : ∃ c cs, natToChars (file.length - 1) = c :: cs := by
    cases hx : natToChars (file.length - 1) with
    | nil => exact absurd hx (natToChars_ne_nil _)
    | cons c cs => exact ⟨c, cs, rfl⟩
  simp only [handleVideoRequest, closedRangeHeader_parts, openRangeHeader_parts]
  rw [hcons]
  simp only [List.getD_cons_zero, List.getD_cons_succ]
  rw [← hcons, jsParseInt_natToChars a, jsParseInt_natToChars (file.length - 1)]
  have hN : ((file.length : Int) - 1) = ((file.length - 1 : Nat) : Int) := by omega
  rw [hN]
  simp

/-- C2: for a file of size `N` and a valid byte range `start ≤ end < N`,
a `/video` request with header `Range: bytes=start-end` is answered 206
with `Content-Range: bytes start-end/N`, `Content-Length = end-start+1`,
and a body of exactly `end-start+1` bytes; an open-ended header
`bytes=start-` behaves as if `end` were `N-1`. -/
theorem video_range_request_contract (file : List Nat) (s e : Nat)
    (h1 : s ≤ e) (h2 : e < file.length) :
    (handleVideoRequest file (some (closedRangeHeader s e))).status = 206 ∧
    (handleVideoRequest file (some (closedRangeHeader s e))).contentRange =
      some ("bytes " ++ natStr s ++ "-" ++ natStr e ++ "/" ++ natStr file.length) ∧
    (handleVideoRequest file (some (closedRangeHeader s e))).contentLength =
      some ((e : Int) - (s : Int) + 1) ∧
    (handleVideoRequest file (some (closedRangeHeader s e))).body.length = e - s + 1 ∧
    handleVideoRequest file (some (openRangeHeader s)) =
      handleVideoRequest file (some (closedRangeHeader s (file.length - 1))) := by
  rw [handleVideo_closed file s e h1]
  refine ⟨rfl, ?_, rfl, ?_, ?_⟩
  · rw [mkContentRange_eq]
  · simp only [List.length_take, List.length_drop]
    omega
  · exact handleVideo_open file s (by omega)

/-- Witness for `video_range_request_contract` at a concrete five-byte
file and the range `bytes=1-3`. -/
theorem video_range_request_contract_witness :
    (handleVideoRequest [10, 20, 30, 40, 50] (some (closedRangeHeader 1 3))).status = 206 ∧
    (handleVideoRequest [10, 20, 30, 40, 50] (some (closedRangeHeader 1 3))).contentRange =
      some ("bytes " ++ natStr 1 ++ "-" ++ natStr 3 ++ "/" ++ natStr 5) ∧
    (handleVideoRequest [10, 20, 30, 40, 50] (some (closedRangeHeader 1 3))).contentLength =
      some ((3 : Int) - (1 : Int) + 1) ∧
    (handleVideoRequest [10, 20, 30, 40, 50] (some (closedRangeHeader 1 3))).body.length = 3 ∧
    handleVideoRequest [10, 20, 30, 40, 50] (some (openRangeHeader 1)) =
      handleVideoRequest [10, 20, 30, 40, 50] (some (closedRangeHeader 1 4)) := by
  have h := video_range_request_contract [10, 20, 30, 40, 50] 1 3 (by decide) (by decide)
  simpa using h

/-- JS values the pipeline handles: everything `JSON.parse` can produce,
plus `undefVal` for the `undefined` that property access on a missing key
yields. -/
inductive JValue where
  | null : JValue
  | undefVal : JValue
  | bool : Bool → JValue
  | num : Int → JValue
  | str : String → JValue
  | arr : List JValue → JValue
  | obj : List (String × JValue) → JValue

/-- JS truthiness. -/
def truthy : JValue → Bool
  | .null => false
  | .undefVal => false
  | .bool b => b
  | .num n => n ≠ 0
  | .str s => s ≠ ""
  | .arr _ => true
  | .obj _ => true

/-- First binding of a key in an object's field list. -/
def lookupField : List (String × JValue) → String → Option JValue
  | [], _ => none
  | (k, v) :: rest, key => if k = key then some v else lookupField rest key

/-- JS property access `v[k]` on the values this pipeline meets, with the
receiver known not to be `null`/`undefined`: `undefined` when the key is
absent or the receiver is a primitive or array. -/
def jsFieldD (v : JValue) (k : String) : JValue :=
  match v with
  | .obj fs => (lookupField fs k).getD .undefVal
  | _ => .undefVal

/-- JS `a || b`. -/
def jsOr (a b : JValue) : JValue := if truthy a then a else b

/-- The manifest resolution of `main` (lines 335–344): an array is
captions only; a truthy object contributes its `captions` field when that
is an array (else `[]`) and its `bRolls` field when that is an array
(else the `[]` the variable was initialised to); anything else leaves
captions `[]` and B-rolls `[]`. -/
def resolveManifest (v : JValue) : List JValue × List JValue :=
  match v with
  | .arr a => (a, [])
  | .obj fs =>
    let captions := match lookupField fs "captions" with
      | some (.arr c) => c
      | _ => []
    let bRolls := match lookupField fs "bRolls" with
      | some (.arr b) => b
      | _ => []
    (captions, bRolls)
  | _ => ([], [])

/-- C7: a manifest that is a flat array resolves to that array of
captions and no B-rolls; an object manifest resolves to its `captions`
field when it is an array (empty otherwise) and its `bRolls` field when
it is an array (empty otherwise); and a flat array resolves identically
to the object `{captions: same array, bRolls: []}`. -/
theorem manifest_resolution_contract (a : List JValue)
    (fs : List (String × JValue)) (capt brs : List JValue) :
    resolveManifest (.arr a) = (a, []) ∧
    (lookupField fs "captions" = some (.arr capt) →
      (resolveManifest (.obj fs)).1 = capt) ∧
    ((∀ x, lookupField fs "captions" ≠ some (.arr x)) →
      (resolveManifest (.obj fs)).1 = []) ∧
    (lookupField fs "bRolls" = some (.arr brs) →
      (resolveManifest (.obj fs)).2 = brs) ∧
    ((∀ x, lookupField fs "bRolls" ≠ some (.arr x)) →
      (resolveManifest (.obj fs)).2 = []) ∧
    resolveManifest (.arr a) =
      resolveManifest (.obj [("captions", .arr a), ("bRolls", .arr [])]) := by
  refine ⟨rfl, ?_, ?_, ?_, ?_, rfl⟩
  · intro h
    simp [resolveManifest, h]
  · intro h
    simp only [resolveManifest]
  · intro h
    simp [resolveManifest, h]
  · intro h
    simp only [resolveManifest]

/-- Witness for `manifest_resolution_contract` at a one-caption object
whose `bRolls` field is a (non-array) number. -/
theorem manifest_resolution_contract_witness :
    (resolveManifest (.obj [("captions", .arr [.str "hi"]), ("bRolls", .num 3)])).1 =
      [JValue.str "hi"] ∧
    (resolveManifest (.obj [("captions", .arr [.str "hi"]), ("bRolls", .num 3)])).2 = [] := by
  have h := manifest_resolution_contract [] [("captions", .arr [.str "hi"]), ("bRolls", .num 3)]
    [.str "hi"] []
  exact ⟨h.2.1 rfl, h.2.2.2.2.1 (by intro x; simp [lookupField])⟩

/-- Outcome of one `spawnSync` invocation: `err` when the call itself
errors (including hitting its timeout), `exit s` for an exit status. -/
inductive SpawnOutcome where
  | err : SpawnOutcome
  | exit : Int → SpawnOutcome
deriving DecidableEq, Repr

/-- The external world `render.mjs` runs against: the filesystem, the
network, the two possible ffmpeg invocations, the generated unique-name
suffix (`Date.now` + `Math.random`), the OS-assigned temp directory and
port, and the render engine's behaviour. -/
structure Env where
  fileExists : String → Bool
  manifest : Except Unit JValue
  fetchStatus : String → Nat
  copySpawn : SpawnOutcome
  encodeSpawn : SpawnOutcome
  stamp : String
  brollDir : String
  port : Nat
  bundleOk : Bool
  selectOk : Bool
  renderOk : Bool
  outSize : Option Nat

/-- One recorded ffmpeg invocation: which tier, its argument vector and
its `spawnSync` timeout in milliseconds. -/
inductive FfCall where
  | copyTier : List String → Nat → FfCall
  | encodeTier : List String → Nat → FfCall
deriving DecidableEq, Repr

/-- Argument vector of the stream-copy trim tier:
`-y -ss 0 -i in -t dur -c copy out`. -/
def copyTrimArgs (inPath outPath : String) (durationSeconds : Int) : List String :=
  ["-y", "-ss", "0", "-i", inPath, "-t", intStr durationSeconds, "-c", "copy", outPath]

/-- Argument vector of the re-encoding trim tier. -/
def encodeTrimArgs (inPath outPath : String) (durationSeconds : Int) : List String :=
  ["-y", "-ss", "0", "-i", inPath, "-t", intStr durationSeconds, "-c:v", "libx264",
    "-preset", "fast", "-pix_fmt", "yuv420p", "-c:a", "aac", "-b:a", "128k", outPath]

/-- Timeout of the stream-copy tier (`2 * 60 * 1000` ms). -/
def copyTrimTimeoutMs : Nat := 2 * 60 * 1000

/-- Timeout of the re-encoding tier (`4 * 60 * 1000` ms). -/
def encodeTrimTimeoutMs : Nat := 4 * 60 * 1000

/-- The source's `trimVideoCopyOrEncode`: attempt the stream-copy trim
first; on a spawn error or a non-zero exit fall back to the re-encoding
trim; report success as `true`, and both tiers failing as `false`.  The
second component records the ffmpeg invocations actually made, in
order. -/
def trimVideoCopyOrEncode (env : Env) (inPath outPath : String)
    (durationSeconds : Int) : Bool × List FfCall :=
  let copyCall := FfCall.copyTier (copyTrimArgs inPath outPath durationSeconds) copyTrimTimeoutMs
  match env.copySpawn with
  | .exit 0 => (true, [copyCall])
  | _ =>
    let encodeCall :=
      FfCall.encodeTier (encodeTrimArgs inPath outPath durationSeconds) encodeTrimTimeoutMs
    match env.encodeSpawn with
    | .exit 0 => (true, [copyCall, encodeCall])
    | _ => (false, [copyCall, encodeCall])

/-- Filesystem side effects of the acquisition step. -/
inductive FsOp where
  | copy : String → String → FsOp
  | write : String → FsOp
  | unlink : String → FsOp
deriving DecidableEq, Repr

/-- Errors `downloadToBrollDir` throws. -/
inductive AcqError where
  | sourceNotFound : String → AcqError
  | downloadFailed : String → Nat → AcqError
deriving DecidableEq, Repr

/-- The video extensions `downloadToBrollDir` recognises. -/
def videoExtsDotted : List String :=
  [".mp4", ".mov", ".mkv", ".webm", ".ogg", ".ogv", ".m4v"]

/-- `getExt(p) || ".jpg"` — the extension used for the staged copy. -/
def extOrJpg (p : String) : String := if getExt p = "" then ".jpg" else getExt p

/-- The generated staged file name:
`${filenameHint}-${Date.now().toString(36)}-${random}${ext}`, with the
timestamp-and-random part supplied by the environment. -/
def uniqueName (hint stamp ext : String) : String := hint ++ "-" ++ stamp ++ ext

/-- Shared tail of the three staging branches of `downloadToBrollDir`
(the `file://`, bare-path and remote blocks are textually identical): if
the staged file's extension marks a video and a positive desired duration
was supplied, trim it; on trim success delete the untrimmed staged file
(best-effort) and return the trimmed path, otherwise return the staged
file untrimmed. -/
def stageVideoMaybe (env : Env) (outPath brollDir unique ext : String)
    (desiredDuration : Option Int) (ops : List FsOp) :
    Except AcqError String × List FsOp :=
  if videoExtsDotted.contains (lowerStr ext) then
    match desiredDuration with
    | some d =>
      if 0 < d then
        let trimmed := brollDir ++ "/" ++ ("trim-" ++ unique)
        if (trimVideoCopyOrEncode env outPath trimmed d).1 then
          (.ok trimmed, ops ++ [FsOp.unlink outPath])
        else (.ok outPath, ops)
      else (.ok outPath, ops)
    | none => (.ok outPath, ops)
  else (.ok outPath, ops)

/-- The source's `downloadToBrollDir`: a falsy `src` is returned as-is; a
`file://` source is copied from the stripped local path, failing when the
path does not exist; a bare (non-`http(s)`) path that exists is copied,
and one that does not exist is returned as-is; a remote source is
fetched, a non-2xx status failing the entry, and the body written to the
staging directory; video assets with a positive desired duration are then
trimmed.  Returns the thrown error or the resulting local path, plus the
filesystem operations performed. -/
def downloadToBrollDir (env : Env) (src brollDir hint : String)
    (desiredDuration : Option Int) : Except AcqError String × List FsOp :=
  if src = "" then (.ok src, [])
  else if strStartsWith src "file://" then
    let localPath := strReplaceFirst src "file://"
    if env.fileExists localPath = false then
      (.error (.sourceNotFound localPath), [])
    else
      let ext := extOrJpg localPath
      let unique := uniqueName hint env.stamp ext
      let outPath := brollDir ++ "/" ++ unique
      stageVideoMaybe env outPath brollDir unique ext desiredDuration
        [FsOp.copy localPath outPath]
  else if ¬(strStartsWith src "http://" || strStartsWith src "https://") then
    if env.fileExists src then
      let ext := extOrJpg src
      let unique := uniqueName hint env.stamp ext
      let outPath := brollDir ++ "/" ++ unique
      stageVideoMaybe env outPath brollDir unique ext desiredDuration
        [FsOp.copy src outPath]
    else (.ok src, [])
  else
    let st := env.fetchStatus src
    if ¬(200 ≤ st ∧ st ≤ 299) then (.error (.downloadFailed src st), [])
    else
      let ext := extOrJpg src
      let unique := uniqueName hint env.stamp ext
      let outPath := brollDir ++ "/" ++ unique
      stageVideoMaybe env outPath brollDir unique ext desiredDuration
        [FsOp.write outPath]

/-- The loop's `const src = b.src || b.url || ""`: throws (`.error`) when
the entry itself is `null`/`undefined` (property access on it throws),
otherwise the first truthy of `b.src`, `b.url`, `""`. -/
def entrySrcVal (b : JValue) : Except Unit JValue :=
  match b with
  | .null => .error ()
  | .undefVal => .error ()
  | _ => .ok (jsOr (jsOr (jsFieldD b "src") (jsFieldD b "url")) (.str ""))

/-- The loop's `typeof b.durationSeconds === "number" ? b.durationSeconds
: null`. -/
def entryDur (b : JValue) : Option Int :=
  match jsFieldD b "durationSeconds" with
  | .num n => some n
  | _ => none

/-- Setting (or appending) a field of an object's field list, the way a
spread `{...b, k: v}` does: an existing key keeps its position with the
new value, a fresh key is appended. -/
def setField (fs : List (String × JValue)) (k : String) (v : JValue) :
    List (String × JValue) :=
  if (lookupField fs k).isSome then
    fs.map fun p => if p.1 = k then (k, v) else p
  else fs ++ [(k, v)]

/-- The loop's `{...b, src: publicUrl, _localPath: localPath}`.  For the
object entries the manifest carries this rewrites `src` and adds
`_localPath`; spreading an array turns indices into keys; spreading any
other primitive contributes no fields. -/
def jsSpread (b : JValue) (publicUrl localPath : String) : JValue :=
  match b with
  | .obj fs => .obj (setField (setField fs "src" (.str publicUrl)) "_localPath" (.str localPath))
  | .arr xs =>
    .obj ((xs.enum.map fun p => (natStr p.1, p.2)) ++
      [("src", .str publicUrl), ("_localPath", .str localPath)])
  | _ => .obj [("src", .str publicUrl), ("_localPath", .str localPath)]

/-- The public URL the loop rewrites a staged entry's `src` to:
`http://127.0.0.1:${port}/broll/${encodeURIComponent(filename)}`. -/
def brollPublicUrl (port : Nat) (filename : String) : String :=
  "http://127.0.0.1:" ++ natStr port ++ "/broll/" ++ encodeURIComponent filename

/-- One iteration of the B-roll loop (lines 357–375): resolve the entry's
source, stage it, and on success push the spread entry with the rewritten
`src` and the recorded `_localPath`; any thrown error (a non-string
source reaching `path.basename`, or a staging failure) is caught and the
original entry is pushed unchanged. -/
def processEntry (env : Env) (brollDir : String) (port : Nat) (i : Nat)
    (b : JValue) : JValue :=
  match entrySrcVal b with
  | .error _ => b
  | .ok srcv =>
    match srcv with
    | .str s =>
      match (downloadToBrollDir env s brollDir ("broll-" ++ natStr i) (entryDur b)).1 with
      | .error _ => b
      | .ok localPath => jsSpread b (brollPublicUrl port (basenameStr localPath)) localPath
    | _ => b

/-- The B-roll loop itself, indexed from `i`. -/
def processBRolls (env : Env) (brollDir : String) (port : Nat) :
    Nat → List JValue → List JValue
  | _, [] => []
  | i, b :: rest =>
    processEntry env brollDir port i b :: processBRolls env brollDir port (i + 1) rest

theorem processBRolls_length (env : Env) (brollDir : String) (port : Nat) :
    ∀ (l : List JValue) (i : Nat),
      (processBRolls env brollDir port i l).length = l.length := by
  intro l
  induction l with
  | nil => intro i; rfl
  | cons b rest ih => intro i; simp [processBRolls, ih (i + 1)]

theorem processBRolls_getD (env : Env) (brollDir : String) (port : Nat) :
    ∀ (l : List JValue) (i k : Nat), k < l.length →
      (processBRolls env brollDir port i l).getD k .null =
        processEntry env brollDir port (i + k) (l.getD k .null) := by
  intro l
  induction l with
  | nil => intro i k hk; simp at hk
  | cons b rest ih =>
    intro i k hk
    cases k with
    | zero => simp [processBRolls]
    | succ k' =>
      simp only [processBRolls, List.getD_cons_succ]
      have := ih (i + 1) k' (by simpa using hk)
      rw [this]
      congr 1
      omega

/-- A JS number that is either `NaN` or an integral value (the only
numbers the duration argument handling distinguishes). -/
inductive JSNum where
  | nan : JSNum
  | val : Int → JSNum
deriving DecidableEq, Repr

/-- Model of the JS `Number(s)` conversion restricted to the decimal
integer numerals a duration argument carries: a non-empty all-digit
string denotes its value, anything else is `NaN`. -/
def jsNumber (s : String) : JSNum :=
  if s.data ≠ [] ∧ s.data.all Char.isDigit then .val (digitsVal s.data) else .nan

/-- Line 318: `durationArg ? Number(durationArg) : 0` (an absent or empty
argument is falsy). -/
def resolveCliDuration (durationArg : Option String) : JSNum :=
  match durationArg with
  | none => .val 0
  | some s => if s = "" then .val 0 else jsNumber s

/-- Line 383: `durationInSeconds: durationSecondsFromCli || undefined`
(`0` and `NaN` are falsy). -/
def cliDurationProp (durationArg : Option String) : Option Int :=
  match resolveCliDuration durationArg with
  | .nan => none
  | .val n => if n = 0 then none else some n

/-- `fps` exported by `VideoWithCaptions.tsx`. -/
def compositionFps : Nat := 30

/-- `Math.round` restricted to the integral values this resolver feeds
it. -/
def jsRoundInt (i : Int) : Int := i

/-- `RemotionRoot`: `durationInSeconds = inputProps?.durationInSeconds ??
60`, `durationInFrames = Math.max(1, Math.round(durationInSeconds *
fps))`. -/
def rootDurationInFrames (durationInSeconds : Option Int) : Int :=
  max 1 (jsRoundInt ((durationInSeconds.getD 60) * compositionFps))

/-- Terminal failures of one orchestrator run. -/
inductive MainError where
  | invalidArguments : MainError
  | captionsMissing : MainError
  | manifestParse : MainError
  | videoMissing : MainError
  | bundleFailed : MainError
  | selectFailed : MainError
  | renderFailed : MainError
  | outputStatFailed : MainError
deriving DecidableEq, Repr

/-- Observable trace of one orchestrator run. -/
structure MainTrace where
  stagingCreated : Bool
  stagingDeleted : Bool
  serverStarted : Bool
  serverCloseCount : Nat
  manifestRead : Bool
  renderPhaseEntered : Bool
  renderInvoked : Bool
  inputDuration : Option Int
  processed : List JValue
  result : Except MainError Unit

/-- JS falsiness of a CLI argument slot (`undefined` or the empty
string). -/
def argFalsy : Option String → Bool
  | none => true
  | some s => s = ""

/-- The orchestrator `main` (lines 312–429) as a function of the
environment and the five CLI argument slots.  Control flow is the
source's: argument validation, captions-file existence check, manifest
read and parse, staging-directory creation, server start (which stats the
video file), the B-roll loop, then the `try` block running
bundle → select composition → render → stat of the output inside a
`finally` that closes the server once; the staging directory is never
deleted (that cleanup is commented out in the source). -/
def runMain (env : Env) (videoPath captionsPath stylePreset outPath
    durationArg : Option String) : MainTrace :=
  if argFalsy videoPath || argFalsy captionsPath || argFalsy stylePreset ||
      argFalsy outPath then
    { stagingCreated := false, stagingDeleted := false, serverStarted := false,
      serverCloseCount := 0, manifestRead := false, renderPhaseEntered := false,
      renderInvoked := false, inputDuration := none, processed := [],
      result := .error .invalidArguments }
  else if env.fileExists (captionsPath.getD "") = false then
    { stagingCreated := false, stagingDeleted := false, serverStarted := false,
      serverCloseCount := 0, manifestRead := false, renderPhaseEntered := false,
      renderInvoked := false, inputDuration := none, processed := [],
      result := .error .captionsMissing }
  else
    match env.manifest with
    | .error _ =>
      { stagingCreated := false, stagingDeleted := false, serverStarted := false,
        serverCloseCount := 0, manifestRead := true, renderPhaseEntered := false,
        renderInvoked := false, inputDuration := none, processed := [],
        result := .error .manifestParse }
    | .ok manifestData =>
      let bRolls := (resolveManifest manifestData).2
      if env.fileExists (videoPath.getD "") = false then
        { stagingCreated := true, stagingDeleted := false, serverStarted := false,
          serverCloseCount := 0, manifestRead := true, renderPhaseEntered := false,
          renderInvoked := false, inputDuration := none, processed := [],
          result := .error .videoMissing }
      else
        let processed := processBRolls env env.brollDir env.port 0 bRolls
        let dur := cliDurationProp durationArg
        if env.bundleOk = false then
          { stagingCreated := true, stagingDeleted := false, serverStarted := true,
            serverCloseCount := 1, manifestRead := true, renderPhaseEntered := true,
            renderInvoked := false, inputDuration := dur, processed := processed,
            result := .error .bundleFailed }
        else if env.selectOk = false then
          { stagingCreated := true, stagingDeleted := false, serverStarted := true,
            serverCloseCount := 1, manifestRead := true, renderPhaseEntered := true,
            renderInvoked := false, inputDuration := dur, processed := processed,
            result := .error .selectFailed }
        else if env.renderOk = false then
          { stagingCreated := true, stagingDeleted := false, serverStarted := true,
            serverCloseCount := 1, manifestRead := true, renderPhaseEntered := true,
            renderInvoked := true, inputDuration := dur, processed := processed,
            result := .error .renderFailed }
        else
          match env.outSize with
          | none =>
            { stagingCreated := true, stagingDeleted := false, serverStarted := true,
              serverCloseCount := 1, manifestRead := true, renderPhaseEntered := true,
              renderInvoked := true, inputDuration := dur, processed := processed,
              result := .error .outputStatFailed }
          | some _ =>
            { stagingCreated := true, stagingDeleted := false, serverStarted := true,
              serverCloseCount := 1, manifestRead := true, renderPhaseEntered := true,
              renderInvoked := true, inputDuration := dur, processed := processed,
              result := .ok () }

instance exceptDecEq {ε α : Type} [DecidableEq ε] [DecidableEq α] :
    DecidableEq (Except ε α)
  | .ok a, .ok b =>
    if h : a = b then .isTrue (by rw [h])
    else .isFalse (by intro hc; cases hc; exact h rfl)
  | .ok _, .error _ => .isFalse (by intro hc; cases hc)
  | .error _, .ok _ => .isFalse (by intro hc; cases hc)
  | .error e, .error f =>
    if h : e = f then .isTrue (by rw [h])
    else .isFalse (by intro hc; cases hc; exact h rfl)

/-- A fully healthy environment: every file exists, the manifest is an
empty caption array, fetches succeed, ffmpeg succeeds, and the render
engine produces a non-empty output. -/
def envBase : Env :=
  { fileExists := fun _ => true, manifest := .ok (.arr []),
    fetchStatus := fun _ => 200, copySpawn := .exit 0, encodeSpawn := .exit 0,
    stamp := "k3x-q1w2e3", brollDir := "/tmp/brolls-abc", port := 40123,
    bundleOk := true, selectOk := true, renderOk := true, outSize := some 1024 }

/-- `envBase` with a zero-byte render output. -/
def envEmptyOutput : Env := { envBase with outSize := some 0 }

/-- `envBase` with a missing render output. -/
def envNoOutput : Env := { envBase with outSize := none }

/-- C1 counterexample: on a fully successful run the orchestrator never
deletes the staging directory (the `rm` is commented out), so the
RenderJob does leave its StagingArea undeleted. -/
theorem orchestrator_cleanup_counterexample :
    (runMain envBase (some "v.mp4") (some "c.json") (some "bottom")
      (some "out.mp4") none).stagingCreated = true ∧
    (runMain envBase (some "v.mp4") (some "c.json") (some "bottom")
      (some "out.mp4") none).stagingDeleted = false ∧
    (runMain envBase (some "v.mp4") (some "c.json") (some "bottom")
      (some "out.mp4") none).result = .ok () := by
  decide

/-- C1 amended: on every run — success, failed step, or exception — the
server is closed exactly once if it was started (zero times otherwise),
but the staging directory is never deleted. -/
theorem orchestrator_cleanup_amended (env : Env) (v c st o d : Option String) :
    ((runMain env v c st o d).serverStarted = true →
      (runMain env v c st o d).serverCloseCount = 1) ∧
    ((runMain env v c st o d).serverStarted = false →
      (runMain env v c st o d).serverCloseCount = 0) ∧
    (runMain env v c st o d).stagingDeleted = false := by
  unfold runMain
  repeat' split
  all_goals simp

/-- Witness for `orchestrator_cleanup_amended` on a successful concrete
run. -/
theorem orchestrator_cleanup_amended_witness :
    (runMain envBase (some "v.mp4") (some "c.json") (some "bottom")
      (some "out.mp4") none).serverCloseCount = 1 ∧
    (runMain envBase (some "v.mp4") (some "c.json") (some "bottom")
      (some "out.mp4") none).stagingDeleted = false :=
  ⟨(orchestrator_cleanup_amended envBase (some "v.mp4") (some "c.json")
      (some "bottom") (some "out.mp4") none).1 (by decide),
   (orchestrator_cleanup_amended envBase (some "v.mp4") (some "c.json")
      (some "bottom") (some "out.mp4") none).2.2⟩

/-- C5: when any of the four required CLI inputs is missing (or empty),
the run fails with the invalid-arguments error before any resource is
touched: no server started, no staging directory created, no manifest
read. -/
theorem invalid_arguments_before_resources (env : Env) (v c st o d : Option String)
    (h : (argFalsy v || argFalsy c || argFalsy st || argFalsy o) = true) :
    (runMain env v c st o d).result = .error .invalidArguments ∧
    (runMain env v c st o d).serverStarted = false ∧
    (runMain env v c st o d).stagingCreated = false ∧
    (runMain env v c st o d).manifestRead = false := by
  unfold runMain
  rw [if_pos h]
  exact ⟨rfl, rfl, rfl, rfl⟩

/-- Witness for `invalid_arguments_before_resources` with the video path
missing. -/
theorem invalid_arguments_before_resources_witness :
    (runMain envBase none (some "c.json") (some "bottom") (some "out.mp4")
      none).result = .error .invalidArguments ∧
    (runMain envBase none (some "c.json") (some "bottom") (some "out.mp4")
      none).serverStarted = false ∧
    (runMain envBase none (some "c.json") (some "bottom") (some "out.mp4")
      none).stagingCreated = false ∧
    (runMain envBase none (some "c.json") (some "bottom") (some "out.mp4")
      none).manifestRead = false :=
  invalid_arguments_before_resources envBase none (some "c.json") (some "bottom")
    (some "out.mp4") none (by decide)

/-- C8 counterexample: a run whose render leaves a zero-byte output file
is reported as success — the post-render check only stats the file, it
never tests that it is non-empty. -/
theorem output_check_counterexample :
    envEmptyOutput.outSize = some 0 ∧
    (runMain envEmptyOutput (some "v.mp4") (some "c.json") (some "bottom")
      (some "out.mp4") none).result = .ok () := by
  decide

/-- C8 amended: after the render the orchestrator verifies only that the
output file can be stat'ed; a missing output is a fatal error, but an
existing empty output is reported as success. -/
theorem output_check_amended (env : Env) (v c st o d : Option String)
    (hargs : (argFalsy v || argFalsy c || argFalsy st || argFalsy o) = false)
    (hcap : env.fileExists (c.getD "") = true)
    (m : JValue) (hman : env.manifest = .ok m)
    (hvid : env.fileExists (v.getD "") = true)
    (hb : env.bundleOk = true) (hs : env.selectOk = true) (hr : env.renderOk = true) :
    (env.outSize = none →
      (runMain env v c st o d).result = .error .outputStatFailed) ∧
    (∀ k, env.outSize = some k → (runMain env v c st o d).result = .ok ()) := by
  constructor
  · intro hout
    simp only [runMain, hargs, hcap, hman, hvid, hb, hs, hr, hout]
    simp
  · intro k hout
    simp only [runMain, hargs, hcap, hman, hvid, hb, hs, hr, hout]
    simp

/-- Witness for `output_check_amended`: a missing output is fatal. -/
theorem output_check_amended_witness :
    (runMain envNoOutput (some "v.mp4") (some "c.json") (some "bottom")
      (some "out.mp4") none).result = .error .outputStatFailed :=
  (output_check_amended envNoOutput (some "v.mp4") (some "c.json") (some "bottom")
    (some "out.mp4") none (by decide) (by decide) (.arr []) rfl (by decide)
    rfl rfl rfl).1 rfl

/-- C10: a target duration of `0`, an unparsable duration argument, or an
absent one all resolve the `durationInSeconds` input property to
`undefined`, and the composition then falls back to its default of 60
seconds — `Math.max(1, Math.round(60 * fps))` = 1800 frames. -/
theorem zero_duration_fallback (d : Option String)
    (h : resolveCliDuration d = .nan ∨ resolveCliDuration d = .val 0) :
    cliDurationProp d = none ∧
    rootDurationInFrames (cliDurationProp d) = 1800 ∧
    rootDurationInFrames none = max 1 (jsRoundInt (60 * compositionFps)) := by
  have h1 : cliDurationProp d = none := by
    unfold cliDurationProp
    rcases h with h | h <;> simp [h]
  exact ⟨h1, by rw [h1]; rfl, rfl⟩

/-- Witness for `zero_duration_fallback` at the unparsable argument
`"abc"`. -/
theorem zero_duration_fallback_witness :
    cliDurationProp (some "abc") = none ∧
    rootDurationInFrames (cliDurationProp (some "abc")) = 1800 ∧
    rootDurationInFrames none = max 1 (jsRoundInt (60 * compositionFps)) :=
  zero_duration_fallback (some "abc") (Or.inl (by decide))


theorem stageVideoMaybe_ops_mem (env : Env) (outPath brollDir unique ext : String)
    (dur : Option Int) (ops : List FsOp) (x : FsOp) (hx : x ∈ ops) :
    x ∈ (stageVideoMaybe env outPath brollDir unique ext dur ops).2 := by
  simp only [stageVideoMaybe]
  repeat' split
  all_goals simp [hx]

theorem stageVideoMaybe_ok (env : Env) (outPath brollDir unique ext : String)
    (dur : Option Int) (ops : List FsOp) :
    ∃ q, (stageVideoMaybe env outPath brollDir unique ext dur ops).1 = .ok q := by
  simp only [stageVideoMaybe]
  repeat' split
  all_goals exact ⟨_, rfl⟩

/-- `envBase` whose filesystem is empty. -/
def envNoFiles : Env := { envBase with fileExists := fun _ => false }

/-- `envBase` whose filesystem holds exactly `/a/b.png`. -/
def envOneFile : Env := { envBase with fileExists := fun s => s = "/a/b.png" }

/-- C6 counterexample: a bare local path that does not exist is *not* a
`SourceNotFound` failure — `downloadToBrollDir` returns the source
string unchanged (the source's `unknown local format -> return as-is`
branch). -/
theorem local_source_counterexample :
    (downloadToBrollDir envNoFiles "missing.mp4" "/tmp/brolls-abc" "broll-0" none).1 =
      .ok "missing.mp4" ∧
    (downloadToBrollDir envNoFiles "missing.mp4" "/tmp/brolls-abc" "broll-0" none).1 ≠
      .error (.sourceNotFound "missing.mp4") := by
  decide

/-- C6 amended: a `file://` source whose stripped path does not exist
fails with `SourceNotFound`; a bare local path that does not exist is
returned as-is with no error; an existing local source of either kind is
copied into the staging directory under the generated unique name
(hint + stamp + extension), which preserves the original extension when
there is one. -/
theorem local_source_acquisition_amended (env : Env) (p brollDir hint : String)
    (dur : Option Int)
    (hp1 : strStartsWith p "file://" = false)
    (hp2 : strStartsWith p "http://" = false)
    (hp3 : strStartsWith p "https://" = false)
    (hp4 : p ≠ "") :
    (env.fileExists p = false →
      (downloadToBrollDir env ("file://" ++ p) brollDir hint dur).1 =
        .error (.sourceNotFound p) ∧
      (downloadToBrollDir env p brollDir hint dur).1 = .ok p) ∧
    (env.fileExists p = true →
      (FsOp.copy p (brollDir ++ "/" ++ uniqueName hint env.stamp (extOrJpg p)) ∈
        (downloadToBrollDir env ("file://" ++ p) brollDir hint dur).2) ∧
      (FsOp.copy p (brollDir ++ "/" ++ uniqueName hint env.stamp (extOrJpg p)) ∈
        (downloadToBrollDir env p brollDir hint dur).2) ∧
      (∃ q, (downloadToBrollDir env ("file://" ++ p) brollDir hint dur).1 = .ok q) ∧
      (∃ q, (downloadToBrollDir env p brollDir hint dur).1 = .ok q)) ∧
    (getExt p ≠ "" →
      ∃ stem, uniqueName hint env.stamp (extOrJpg p) = stem ++ getExt p) := by
  have hne : ("file://" ++ p) ≠ "" := append_ne_empty_of_ne "file://" p (by decide)
  have hfile : strStartsWith ("file://" ++ p) "file://" = true :=
    strStartsWith_append "file://" p
  have hrep : strReplaceFirst ("file://" ++ p) "file://" = p :=
    strReplaceFirst_append "file://" p
  have hfileEq : downloadToBrollDir env ("file://" ++ p) brollDir hint dur =
      (if env.fileExists p = false then (.error (.sourceNotFound p), [])
       else
        stageVideoMaybe env (brollDir ++ "/" ++ uniqueName hint env.stamp (extOrJpg p))
          brollDir (uniqueName hint env.stamp (extOrJpg p)) (extOrJpg p) dur
          [FsOp.copy p (brollDir ++ "/" ++ uniqueName hint env.stamp (extOrJpg p))]) := by
    unfold downloadToBrollDir
    rw [if_neg hne, if_pos hfile, hrep]
  have hbareEq : downloadToBrollDir env p brollDir hint dur =
      (if env.fileExists p then
        stageVideoMaybe env (brollDir ++ "/" ++ uniqueName hint env.stamp (extOrJpg p))
          brollDir (uniqueName hint env.stamp (extOrJpg p)) (extOrJpg p) dur
          [FsOp.copy p (brollDir ++ "/" ++ uniqueName hint env.stamp (extOrJpg p))]
       else (.ok p, [])) := by
    unfold downloadToBrollDir
    rw [if_neg hp4, if_neg (by simp [hp1]), if_pos (by simp [hp2, hp3])]
  refine ⟨?_, ?_, ?_⟩
  · intro hex
    constructor
    · rw [hfileEq, if_pos hex]
    · rw [hbareEq, if_neg (by simp [hex])]
  · intro hex
    refine ⟨?_, ?_, ?_, ?_⟩
    · rw [hfileEq, if_neg (by simp [hex])]
      exact stageVideoMaybe_ops_mem _ _ _ _ _ _ _ _ (by simp)
    · rw [hbareEq, if_pos hex]
      exact stageVideoMaybe_ops_mem _ _ _ _ _ _ _ _ (by simp)
    · rw [hfileEq, if_neg (by simp [hex])]
      exact stageVideoMaybe_ok _ _ _ _ _ _ _
    · rw [hbareEq, if_pos hex]
      exact stageVideoMaybe_ok _ _ _ _ _ _ _
  · intro hext
    refine ⟨hint ++ "-" ++ env.stamp, ?_⟩
    unfold uniqueName extOrJpg
    rw [if_neg hext]

/-- Witness for `local_source_acquisition_amended`: the missing-path
`file://` failure and the existing-path staging copy, at concrete
inputs. -/
theorem local_source_acquisition_amended_witness :
    (downloadToBrollDir envNoFiles ("file://" ++ "/a/b.png") "/tmp/brolls-abc"
      "broll-0" none).1 = .error (.sourceNotFound "/a/b.png") ∧
    (FsOp.copy "/a/b.png"
        ("/tmp/brolls-abc" ++ "/" ++ uniqueName "broll-0" envOneFile.stamp (extOrJpg "/a/b.png")) ∈
      (downloadToBrollDir envOneFile ("file://" ++ "/a/b.png") "/tmp/brolls-abc"
        "broll-0" none).2) ∧
    (∃ stem, uniqueName "broll-0" envOneFile.stamp (extOrJpg "/a/b.png") =
      stem ++ getExt "/a/b.png") :=
  ⟨((local_source_acquisition_amended envNoFiles "/a/b.png" "/tmp/brolls-abc" "broll-0"
      none (by decide) (by decide) (by decide) (by decide)).1 (by decide)).1,
   ((local_source_acquisition_amended envOneFile "/a/b.png" "/tmp/brolls-abc" "broll-0"
      none (by decide) (by decide) (by decide) (by decide)).2.1 (by decide)).1,
   (local_source_acquisition_amended envOneFile "/a/b.png" "/tmp/brolls-abc" "broll-0"
      none (by decide) (by decide) (by decide) (by decide)).2.2 (by decide)⟩


/-- A positive duration renders as a digit string, never as the flag
`-r`. -/
theorem intStr_pos_ne_dash_r (d : Int) (hd : 0 < d) : intStr d ≠ "-r" := by
  intro h
  have hdata : intToChars d = ['-', 'r'] := congrArg String.data h
  rw [intToChars, if_neg (by omega)] at hdata
  have hmem : '-' ∈ natToChars d.toNat := by rw [hdata]; simp
  exact natToChars_no_dash d.toNat hmem

/-- A `spawnSync` outcome the source treats as this tier failing: the
call errored (`r.error`, which includes its timeout firing) or it exited
non-zero. -/
def spawnFailed : SpawnOutcome → Prop
  | .err => True
  | .exit s => s ≠ 0

/-- C4: video trimming is two-tiered.  Neither tier's argument vector
carries a frame-rate override (`-r`); the copy tier is bounded by the
2-minute timeout and the encode tier by the 4-minute one; the copy tier
is a stream-copy trim from 0 of the desired duration (`-ss 0`, `-t d`,
`-c copy`); the encode tier uses the fixed `fast` preset and `yuv420p`
pixel format; copy success makes exactly one ffmpeg call, copy failure
falls through to the encode tier, both tiers failing yields `false` (the
surfaced trim failure); and when both tiers fail on an existing local
`.mp4` source the acquisition returns the original untrimmed staged
file. -/
theorem trim_two_tier_contract (env : Env) (inPath outPath p brollDir hint : String)
    (d : Int) (hd : 0 < d) (hin : inPath ≠ "-r") (hout : outPath ≠ "-r")
    (hp1 : strStartsWith p "file://" = false)
    (hp2 : strStartsWith p "http://" = false)
    (hp3 : strStartsWith p "https://" = false)
    (hp4 : p ≠ "")
    (hexists : env.fileExists p = true)
    (hext : getExt p = ".mp4") :
    ("-r" ∉ copyTrimArgs inPath outPath d ∧ "-r" ∉ encodeTrimArgs inPath outPath d) ∧
    (copyTrimTimeoutMs = 2 * 60 * 1000 ∧ encodeTrimTimeoutMs = 4 * 60 * 1000) ∧
    (∃ l1 l2, copyTrimArgs inPath outPath d = l1 ++ ["-ss", "0"] ++ l2) ∧
    (∃ l1 l2, copyTrimArgs inPath outPath d = l1 ++ ["-t", intStr d] ++ l2) ∧
    (∃ l1 l2, copyTrimArgs inPath outPath d = l1 ++ ["-c", "copy"] ++ l2) ∧
    (∃ l1 l2, encodeTrimArgs inPath outPath d = l1 ++ ["-preset", "fast"] ++ l2) ∧
    (∃ l1 l2, encodeTrimArgs inPath outPath d = l1 ++ ["-pix_fmt", "yuv420p"] ++ l2) ∧
    (env.copySpawn = .exit 0 →
      trimVideoCopyOrEncode env inPath outPath d =
        (true, [.copyTier (copyTrimArgs inPath outPath d) copyTrimTimeoutMs])) ∧
    (spawnFailed env.copySpawn → env.encodeSpawn = .exit 0 →
      trimVideoCopyOrEncode env inPath outPath d =
        (true, [.copyTier (copyTrimArgs inPath outPath d) copyTrimTimeoutMs,
                .encodeTier (encodeTrimArgs inPath outPath d) encodeTrimTimeoutMs])) ∧
    (spawnFailed env.copySpawn → spawnFailed env.encodeSpawn →
      trimVideoCopyOrEncode env inPath outPath d =
        (false, [.copyTier (copyTrimArgs inPath outPath d) copyTrimTimeoutMs,
                 .encodeTier (encodeTrimArgs inPath outPath d) encodeTrimTimeoutMs])) ∧
    (spawnFailed env.copySpawn → spawnFailed env.encodeSpawn →
      (downloadToBrollDir env p brollDir hint (some d)).1 =
        .ok (brollDir ++ "/" ++ uniqueName hint env.stamp ".mp4")) := by
  have hd' := intStr_pos_ne_dash_r d hd
  have hD : ∀ i o : String, spawnFailed env.copySpawn → spawnFailed env.encodeSpawn →
      trimVideoCopyOrEncode env i o d =
        (false, [.copyTier (copyTrimArgs i o d) copyTrimTimeoutMs,
                 .encodeTier (encodeTrimArgs i o d) encodeTrimTimeoutMs]) := by
    intro i o hcf hef
    unfold trimVideoCopyOrEncode
    split
    · next heq => rw [heq] at hcf; simp [spawnFailed] at hcf
    · split
      · next heq => rw [heq] at hef; simp [spawnFailed] at hef
      · rfl
  refine ⟨⟨?_, ?_⟩, ⟨rfl, rfl⟩, ⟨["-y"], _, rfl⟩,
    ⟨["-y", "-ss", "0", "-i", inPath], _, rfl⟩,
    ⟨["-y", "-ss", "0", "-i", inPath, "-t", intStr d], _, rfl⟩,
    ⟨["-y", "-ss", "0", "-i", inPath, "-t", intStr d, "-c:v", "libx264"], _, rfl⟩,
    ⟨["-y", "-ss", "0", "-i", inPath, "-t", intStr d, "-c:v", "libx264", "-preset", "fast"],
      _, rfl⟩, ?_, ?_, hD inPath outPath, ?_⟩
  · simp [copyTrimArgs, Ne.symm hin, Ne.symm hout, Ne.symm hd']
  · simp [encodeTrimArgs, Ne.symm hin, Ne.symm hout, Ne.symm hd']
  · intro h
    unfold trimVideoCopyOrEncode
    rw [h]
    rfl
  · intro hcf hef
    unfold trimVideoCopyOrEncode
    split
    · next heq => rw [heq] at hcf; simp [spawnFailed] at hcf
    · rw [hef]
      rfl
  · intro hcf hef
    have hbareEq : downloadToBrollDir env p brollDir hint (some d) =
        (if env.fileExists p then
          stageVideoMaybe env (brollDir ++ "/" ++ uniqueName hint env.stamp (extOrJpg p))
            brollDir (uniqueName hint env.stamp (extOrJpg p)) (extOrJpg p) (some d)
            [FsOp.copy p (brollDir ++ "/" ++ uniqueName hint env.stamp (extOrJpg p))]
         else (.ok p, [])) := by
      unfold downloadToBrollDir
      rw [if_neg hp4, if_neg (by simp [hp1]), if_pos (by simp [hp2, hp3])]
    have hextOr : extOrJpg p = ".mp4" := by
      unfold extOrJpg
      rw [hext]
      simp
    rw [hbareEq, if_pos hexists, hextOr]
    simp only [stageVideoMaybe]
    rw [if_pos (by decide), if_pos hd, if_neg (by simp [hD _ _ hcf hef])]

/-- `envBase` with one staged-trimmable file and both ffmpeg tiers
failing (the copy tier exits 1, the encode tier errors). -/
def envTrimFail : Env :=
  { envBase with
    fileExists := fun s => s = "/clips/b.mp4"
    copySpawn := SpawnOutcome.exit 1
    encodeSpawn := SpawnOutcome.err }

/-- Witness for `trim_two_tier_contract`: with both tiers failing, the
trim reports failure after making exactly the two recorded calls and the
acquisition returns the untrimmed staged file. -/
theorem trim_two_tier_contract_witness :
    trimVideoCopyOrEncode envTrimFail "in.mp4" "out.mp4" 3 =
      (false, [.copyTier (copyTrimArgs "in.mp4" "out.mp4" 3) copyTrimTimeoutMs,
               .encodeTier (encodeTrimArgs "in.mp4" "out.mp4" 3) encodeTrimTimeoutMs]) ∧
    (downloadToBrollDir envTrimFail "/clips/b.mp4" "/tmp/brolls-abc" "broll-0"
        (some 3)).1 =
      .ok ("/tmp/brolls-abc" ++ "/" ++ uniqueName "broll-0" envTrimFail.stamp ".mp4") := by
  have h := trim_two_tier_contract envTrimFail "in.mp4" "out.mp4" "/clips/b.mp4"
    "/tmp/brolls-abc" "broll-0" 3 (by decide) (by decide) (by decide) (by decide)
    (by decide) (by decide) (by decide) (by decide) (by decide)
  exact ⟨h.2.2.2.2.2.2.2.2.2.1 (by simp [envTrimFail, spawnFailed])
           (by simp [envTrimFail, spawnFailed]),
         h.2.2.2.2.2.2.2.2.2.2 (by simp [envTrimFail, spawnFailed])
           (by simp [envTrimFail, spawnFailed])⟩

/-- Field lookup on an object value (`none` for non-objects). -/
def objLookup : JValue → String → Option JValue
  | .obj fs, k => lookupField fs k
  | _, _ => none

/-- The acquisition of one B-roll entry fails: its resolved source is a
string whose staging throws (`SourceNotFound`, `DownloadFailed`). -/
def entryAcqFailed (env : Env) (brollDir : String) (i : Nat) (b : JValue) : Prop :=
  ∃ s, entrySrcVal b = .ok (.str s) ∧
    ∃ e, (downloadToBrollDir env s brollDir ("broll-" ++ natStr i) (entryDur b)).1 =
      .error e

theorem lookupField_map_set (fs : List (String × JValue)) (k : String) (v : JValue)
    (key : String) (h : key ≠ k) :
    lookupField (fs.map fun p => if p.1 = k then (k, v) else p) key =
      lookupField fs key := by
  induction fs with
  | nil => rfl
  | cons p rest ih =>
    obtain ⟨k', v'⟩ := p
    rw [List.map_cons]
    by_cases hk : k' = k
    · subst hk
      rw [if_pos rfl]
      show lookupField ((k', v) :: rest.map fun p => if p.1 = k' then (k', v) else p) key =
        lookupField ((k', v') :: rest) key
      simp only [lookupField]
      rw [if_neg (Ne.symm h), if_neg (Ne.symm h)]
      exact ih
    · rw [if_neg hk]
      show lookupField ((k', v') :: rest.map fun p => if p.1 = k then (k, v) else p) key =
        lookupField ((k', v') :: rest) key
      simp only [lookupField]
      by_cases hky : k' = key
      · simp [hky]
      · simp [hky, ih]

theorem lookupField_append_single (fs : List (String × JValue)) (k : String)
    (v : JValue) (key : String) (h : key ≠ k) :
    lookupField (fs ++ [(k, v)]) key = lookupField fs key := by
  induction fs with
  | nil => simp [lookupField, Ne.symm h]
  | cons p rest ih =>
    obtain ⟨k', v'⟩ := p
    simp only [List.cons_append, lookupField]
    by_cases hky : k' = key
    · simp [hky]
    · simp [hky, ih]

theorem lookupField_setField_ne (fs : List (String × JValue)) (k : String)
    (v : JValue) (key : String) (h : key ≠ k) :
    lookupField (setField fs k v) key = lookupField fs key := by
  unfold setField
  split
  · exact lookupField_map_set fs k v key h
  · exact lookupField_append_single fs k v key h

theorem processEntry_of_fail (env : Env) (brollDir : String) (port i : Nat)
    (b : JValue) (hfail : entryAcqFailed env brollDir i b) :
    processEntry env brollDir port i b = b := by
  obtain ⟨s, hs, e, he⟩ := hfail
  unfold processEntry
  rw [hs]
  simp [he]

theorem processEntry_of_success (env : Env) (brollDir : String) (port i : Nat)
    (b : JValue) (s lp : String)
    (hs : entrySrcVal b = .ok (.str s))
    (hdl : (downloadToBrollDir env s brollDir ("broll-" ++ natStr i) (entryDur b)).1 =
      .ok lp) :
    processEntry env brollDir port i b =
      jsSpread b (brollPublicUrl port (basenameStr lp)) lp := by
  unfold processEntry
  rw [hs]
  simp [hdl]

theorem processEntry_preserves_other_fields (env : Env) (brollDir : String)
    (port i : Nat) (fs : List (String × JValue)) (key : String)
    (h1 : key ≠ "src") (h2 : key ≠ "_localPath") :
    objLookup (processEntry env brollDir port i (.obj fs)) key = lookupField fs key := by
  unfold processEntry
  simp only [entrySrcVal]
  cases hsv : jsOr (jsOr (jsFieldD (JValue.obj fs) "src") (jsFieldD (JValue.obj fs) "url"))
      (JValue.str "") with
  | str s =>
    cases hdl : (downloadToBrollDir env s brollDir ("broll-" ++ natStr i)
        (entryDur (JValue.obj fs))).1 with
    | error e => simp [hdl, objLookup]
    | ok lp =>
      simp only [hdl, jsSpread, objLookup]
      rw [lookupField_setField_ne _ _ _ _ h2, lookupField_setField_ne _ _ _ _ h1]
  | null => rfl
  | undefVal => rfl
  | bool b => rfl
  | num n => rfl
  | arr a => rfl
  | obj o => rfl

/-- C9: the acquisition loop maps the B-roll list entrywise — output has
the same length and order, each slot is the per-entry function of the
input slot; for object entries every field other than `src` and the
added `_localPath` keeps its value, a failed entry is the original
object unmodified, and a successfully staged entry is the original
spread with `src` rewritten to the public URL and `_localPath` added. -/
theorem broll_loop_frame_effect (env : Env) (brollDir : String) (port : Nat)
    (bRolls : List JValue) :
    (processBRolls env brollDir port 0 bRolls).length = bRolls.length ∧
    (∀ k, k < bRolls.length →
      (processBRolls env brollDir port 0 bRolls).getD k .null =
        processEntry env brollDir port k (bRolls.getD k .null)) ∧
    (∀ k fs, k < bRolls.length → bRolls.getD k .null = .obj fs →
      (∀ key, key ≠ "src" → key ≠ "_localPath" →
        objLookup ((processBRolls env brollDir port 0 bRolls).getD k .null) key =
          lookupField fs key) ∧
      (entryAcqFailed env brollDir k (.obj fs) →
        (processBRolls env brollDir port 0 bRolls).getD k .null = .obj fs) ∧
      (∀ s lp, entrySrcVal (.obj fs) = .ok (.str s) →
        (downloadToBrollDir env s brollDir ("broll-" ++ natStr k)
          (entryDur (.obj fs))).1 = .ok lp →
        (processBRolls env brollDir port 0 bRolls).getD k .null =
          jsSpread (.obj fs) (brollPublicUrl port (basenameStr lp)) lp)) := by
  have hget : ∀ k, k < bRolls.length →
      (processBRolls env brollDir port 0 bRolls).getD k .null =
        processEntry env brollDir port k (bRolls.getD k .null) := by
    intro k hk
    have h := processBRolls_getD env brollDir port bRolls 0 k hk
    simpa using h
  refine ⟨processBRolls_length env brollDir port bRolls 0, hget, ?_⟩
  intro k fs hk hobj
  have hg := hget k hk
  rw [hobj] at hg
  refine ⟨?_, ?_, ?_⟩
  · intro key hkey1 hkey2
    rw [hg]
    exact processEntry_preserves_other_fields env brollDir port k fs key hkey1 hkey2
  · intro hfail
    rw [hg]
    exact processEntry_of_fail env brollDir port k (.obj fs) hfail
  · intro s lp hs hdl
    rw [hg]
    exact processEntry_of_success env brollDir port k (.obj fs) s lp hs hdl

/-- Witness for `broll_loop_frame_effect`: a one-entry list whose entry
stages successfully keeps its other field (`note`) unchanged. -/
theorem broll_loop_frame_effect_witness :
    (processBRolls envBase "/tmp/brolls-abc" 40123 0
      [.obj [("src", .str "file:///a/b.png"), ("note", .str "n")]]).length = 1 ∧
    objLookup ((processBRolls envBase "/tmp/brolls-abc" 40123 0
      [.obj [("src", .str "file:///a/b.png"), ("note", .str "n")]]).getD 0 .null)
      "note" = some (.str "n") := by
  have h := broll_loop_frame_effect envBase "/tmp/brolls-abc" 40123
    [.obj [("src", .str "file:///a/b.png"), ("note", .str "n")]]
  refine ⟨h.1, ?_⟩
  have h2 := (h.2.2 0 [("src", .str "file:///a/b.png"), ("note", .str "n")]
    (by decide) rfl).1 "note" (by decide) (by decide)
  rw [h2]
  rfl

/-- The manifest used by the C3 witness environment: no captions, one
remote B-roll entry. -/
def env404 : Env :=
  { envBase with
    fetchStatus := fun _ => 404
    manifest := .ok (.obj [("captions", .arr []),
      ("bRolls", .arr [.obj [("src", .str "http://h/x.jpg")]])]) }

/-- C3: B-roll acquisition is per-entry independent.  When one entry's
acquisition fails (its staging throws, e.g. a non-2xx fetch), the loop
still yields a list of the same length, the failed entry is passed
through unchanged (original `src`), every slot is still the per-entry
function of its input slot, and the orchestrator still enters the render
phase with exactly that processed list. -/
theorem broll_failure_isolation (env : Env) (v c st o d : Option String)
    (m : JValue) (bRolls : List JValue) (i : Nat)
    (hi : i < bRolls.length)
    (hfail : entryAcqFailed env env.brollDir i (bRolls.getD i .null))
    (hargs : (argFalsy v || argFalsy c || argFalsy st || argFalsy o) = false)
    (hcap : env.fileExists (c.getD "") = true)
    (hman : env.manifest = .ok m)
    (hbr : (resolveManifest m).2 = bRolls)
    (hvid : env.fileExists (v.getD "") = true) :
    (processBRolls env env.brollDir env.port 0 bRolls).length = bRolls.length ∧
    (processBRolls env env.brollDir env.port 0 bRolls).getD i .null =
      bRolls.getD i .null ∧
    (∀ k, k < bRolls.length →
      (processBRolls env env.brollDir env.port 0 bRolls).getD k .null =
        processEntry env env.brollDir env.port k (bRolls.getD k .null)) ∧
    (runMain env v c st o d).processed =
      processBRolls env env.brollDir env.port 0 bRolls ∧
    (runMain env v c st o d).renderPhaseEntered = true := by
  have hget : ∀ k, k < bRolls.length →
      (processBRolls env env.brollDir env.port 0 bRolls).getD k .null =
        processEntry env env.brollDir env.port k (bRolls.getD k .null) := by
    intro k hk
    have h := processBRolls_getD env env.brollDir env.port bRolls 0 k hk
    simpa using h
  have hmain : (runMain env v c st o d).processed =
      processBRolls env env.brollDir env.port 0 bRolls ∧
      (runMain env v c st o d).renderPhaseEntered = true := by
    unfold runMain
    rw [hman]
    simp only [hargs, hcap, hvid, hbr]
    repeat' split
    all_goals simp_all
  refine ⟨processBRolls_length env env.brollDir env.port bRolls 0, ?_, hget,
    hmain.1, hmain.2⟩
  rw [hget i hi]
  exact processEntry_of_fail env env.brollDir env.port i (bRolls.getD i .null) hfail

/-- Witness for `broll_failure_isolation`: a one-entry list whose remote
fetch returns 404 is passed through unchanged and the run still enters
the render phase. -/
theorem broll_failure_isolation_witness :
    (processBRolls env404 env404.brollDir env404.port 0
      [.obj [("src", .str "http://h/x.jpg")]]).getD 0 .null =
      ([.obj [("src", .str "http://h/x.jpg")]] : List JValue).getD 0 .null ∧
    (runMain env404 (some "v.mp4") (some "c.json") (some "bottom") (some "out.mp4")
      none).renderPhaseEntered = true := by
  have h := broll_failure_isolation env404 (some "v.mp4") (some "c.json")
    (some "bottom") (some "out.mp4") none
    (.obj [("captions", .arr []), ("bRolls", .arr [.obj [("src", .str "http://h/x.jpg")]])])
    [.obj [("src", .str "http://h/x.jpg")]] 0 (by decide)
    ⟨"http://h/x.jpg", rfl, .downloadFailed "http://h/x.jpg" 404, rfl⟩
    (by decide) (by decide) rfl rfl (by decide)
  exact ⟨h.2.1, h.2.2.2.2⟩
